import Mathlib

/-!
Verification development for the GraphIt GraphQL client core.

This file gives a shallow embedding of the request/subscription execution
core of the repository (src/lib/interpolation.ts, src/lib/request.ts,
src/lib/subscription.ts, src/lib/scripts.ts and the sandbox worker) and
proves or refutes the frozen specification claims about it.

Host primitives that are not part of the repository (the WHATWG URL
parser, JSON.parse, fetch, the wall clock) are modelled as oracle
functions collected in a World structure; everything the repository
itself computes is translated into executable Lean definitions.
-/

/-! ## JavaScript values used as environment-variable bindings -/

/-- Literal opening brace character, used by the interpolation scanner. -/
def lbrace : Char := '\x7b'

/-- Literal closing brace character, used by the interpolation scanner. -/
def rbrace : Char := '\x7d'

/-- Model of the JavaScript value stored for an environment variable
(EnvVariable.value has type string or number or boolean or object).
An object value carries its JSON.stringify rendering abstractly, since
the interpolation code only ever observes that rendering. -/
inductive JsValue where
  | vStr : String → JsValue
  | vNum : Int → JsValue
  | vBool : Bool → JsValue
  | vObj : String → JsValue
deriving DecidableEq

/-- Rendering of a value during interpolation: objects go through
JSON.stringify, every other value through the String() conversion.
Mirrors lines 23-24 of interpolation.ts. -/
def renderValue : JsValue → String
  | JsValue.vStr s => s
  | JsValue.vNum n => toString n
  | JsValue.vBool b => if b then "true" else "false"
  | JsValue.vObj j => j

/-- InterpolationContext from interpolation.ts: a mapping from variable
name to value; a name not bound by the active environment is undefined,
modelled as none.  (The source field is called "variables"; that word is
reserved in Lean, so the field is named vars here.) -/
structure InterpolationContext where
  vars : String → Option JsValue

/-- Whitespace predicate of the String.prototype.trim call applied to
captured placeholder names. -/
def isJsSpace (c : Char) : Bool :=
  c = ' ' || c = '\t' || c = '\n' || c = '\r' || c = '\x0b' || c = '\x0c'

/-- String.prototype.trim: drop whitespace from both ends. -/
def trimString (s : String) : String :=
  String.mk (((s.data.dropWhile isJsSpace).reverse.dropWhile isJsSpace).reverse)

/-! ## The regex scanner of interpolateString

interpolateString uses the global regex on two open braces, one or more
non-closing-brace characters, two close braces.  Matching is leftmost and
non-overlapping: at a given position the pattern matches exactly when the
two open braces are followed by a maximal nonempty run of characters
other than the closing brace, and the two characters after that run are
both closing braces. -/

/-- Split a character list into its maximal closing-brace-free head and
the remainder (the span of the character class excluding the closing
brace, applied greedily). -/
def spanContent : List Char → List Char × List Char
  | [] => ([], [])
  | c :: cs =>
    if c = rbrace then ([], c :: cs)
    else ((spanContent cs).1.cons c, (spanContent cs).2)

/-- Attempt to match the placeholder regex at the head of the character
list.  On success return the captured content (the characters between
the braces) and the remainder of the input after the whole match. -/
def tryMatch (cs : List Char) : Option (List Char × List Char) :=
  match cs with
  | c1 :: c2 :: rest =>
    if c1 = lbrace ∧ c2 = lbrace then
      match spanContent rest with
      | (content, d1 :: d2 :: rest2) =>
        if content ≠ [] ∧ d1 = rbrace ∧ d2 = rbrace then some (content, rest2) else none
      | _ => none
    else none
  | _ => none

/-- Replacement text for one matched placeholder, as a character list.
The captured content is trimmed to obtain the variable name; an unbound
name (undefined value) keeps the original matched text, a bound value is
rendered.  Mirrors lines 20-24 of interpolation.ts. -/
def replaceFor (ctx : InterpolationContext) (content : List Char) : List Char :=
  match ctx.vars (trimString (String.mk content)) with
  | none => lbrace :: lbrace :: (content ++ rbrace :: rbrace :: [])
  | some v => (renderValue v).data

/-- The global-replace loop of interpolateString: scan left to right,
replacing each leftmost match and continuing after it, copying
non-matching characters unchanged.  The fuel argument bounds the number
of scan steps; every step consumes at least one input character, so fuel
equal to the input length always suffices. -/
def interpGo (ctx : InterpolationContext) : Nat → List Char → List Char
  | 0, cs => cs
  | Nat.succ fuel, cs =>
    match cs with
    | [] => []
    | c :: cs2 =>
      match tryMatch (c :: cs2) with
      | some (content, rest) => replaceFor ctx content ++ interpGo ctx fuel rest
      | none => c :: interpGo ctx fuel cs2

/-- interpolateString from interpolation.ts lines 15-26. -/
def interpolateString (template : String) (ctx : InterpolationContext) : String :=
  String.mk (interpGo ctx template.data.length template.data)

/-- The scan loop of extractVariableNames: collect the trimmed captured
name of every match, in match order, duplicates included. -/
def extractGo : Nat → List Char → List String
  | 0, _ => []
  | Nat.succ fuel, cs =>
    match cs with
    | [] => []
    | c :: cs2 =>
      match tryMatch (c :: cs2) with
      | some (content, rest) => trimString (String.mk content) :: extractGo fuel rest
      | none => extractGo fuel cs2

/-- Array.prototype.includes on a list of strings. -/
def includesStr (l : List String) (s : String) : Bool := decide (s ∈ l)

/-- The dedup-preserving-first-seen-order accumulation of
extractVariableNames (names.push guarded by names.includes). -/
def dedupFirstSeen (l : List String) : List String :=
  l.foldl (fun acc n => if includesStr acc n then acc else acc ++ [n]) []

/-- extractVariableNames from interpolation.ts lines 82-93. -/
def extractVariableNames (template : String) : List String :=
  dedupFirstSeen (extractGo template.data.length template.data)

example : interpolateString "\x7b\x7bX\x7d\x7d" ⟨fun _ => none⟩ = "\x7b\x7bX\x7d\x7d" := by decide

example :
    interpolateString "a \x7b\x7b N \x7d\x7d b"
      ⟨fun n => if n = "N" then some (JsValue.vNum 7) else none⟩ = "a 7 b" := by decide

example : extractVariableNames "\x7b\x7bA\x7d\x7d/\x7b\x7bA\x7d\x7d/\x7b\x7bB\x7d\x7d" = ["A", "B"] := by decide

example : interpolateString "\x7b\x7b\x7d\x7d" ⟨fun _ => none⟩ = "\x7b\x7b\x7d\x7d" := by decide

/-! ## Facts about the scanner, leading to the claim C9 theorem -/

theorem spanContent_append : ∀ cs : List Char, (spanContent cs).1 ++ (spanContent cs).2 = cs := by
  intro cs
  induction cs with
  | nil => simp [spanContent]
  | cons c cs ih =>
    simp only [spanContent]
    by_cases h : c = rbrace
    · simp [h]
    · simp only [if_neg h, List.cons_append, List.cons.injEq, true_and]
      simpa using ih

theorem spanContent_snd_head : ∀ cs d tl, (spanContent cs).2 = d :: tl → d = rbrace := by
  intro cs
  induction cs with
  | nil => intro d tl h; simp [spanContent] at h
  | cons c cs ih =>
    intro d tl h
    simp only [spanContent] at h
    by_cases hc : c = rbrace
    · rw [if_pos hc] at h
      obtain ⟨h1, -⟩ := List.cons.injEq .. ▸ h
      rw [← h1, hc]
    · rw [if_neg hc] at h
      exact ih d tl h

theorem tryMatch_eq : ∀ {cs content rest : List Char}, tryMatch cs = some (content, rest) →
    cs = lbrace :: lbrace :: (content ++ rbrace :: rbrace :: rest) ∧ content ≠ [] := by
  intro cs content rest h
  unfold tryMatch at h
  split at h
  case h_2 => exact absurd h (by simp)
  case h_1 c1 c2 rest0 =>
    split at h
    case isFalse => exact absurd h (by simp)
    case isTrue hb =>
      split at h
      case h_2 ne => exact absurd h (by simp)
      case h_1 content0 d1 d2 rest2 heq =>
        split at h
        case isFalse => exact absurd h (by simp)
        case isTrue hcond =>
          obtain ⟨hcne, hd1, hd2⟩ := hcond
          obtain ⟨hc, hr⟩ := Prod.mk.injEq .. ▸ (Option.some.injEq .. ▸ h)
          subst hc hr
          have happ := spanContent_append rest0
          rw [heq] at happ
          constructor
          · rw [hb.1, hb.2, ← happ, hd1, hd2]
          · exact hcne

theorem mem_dedup_go (l : List String) : ∀ acc a,
    (a ∈ l.foldl (fun acc n => if includesStr acc n then acc else acc ++ [n]) acc) ↔
      a ∈ acc ∨ a ∈ l := by
  induction l with
  | nil => simp
  | cons n ns ih =>
    intro acc a
    simp only [List.foldl_cons]
    rw [ih]
    have hinc : includesStr acc n = true ↔ n ∈ acc := by
      unfold includesStr; exact decide_eq_true_iff
    by_cases h : includesStr acc n = true
    · rw [if_pos h]
      rw [hinc] at h
      constructor
      · rintro (ha | ha)
        · exact Or.inl ha
        · exact Or.inr (List.mem_cons_of_mem _ ha)
      · rintro (ha | ha)
        · exact Or.inl ha
        · rcases List.mem_cons.mp ha with he | ha
          · exact Or.inl (he ▸ h)
          · exact Or.inr ha
    · rw [if_neg h]
      simp only [List.mem_append, List.mem_singleton, List.mem_cons]
      tauto

theorem mem_dedupFirstSeen (l : List String) (a : String) :
    a ∈ dedupFirstSeen l ↔ a ∈ l := by
  unfold dedupFirstSeen
  rw [mem_dedup_go]
  simp

theorem interpGo_unbound (ctx : InterpolationContext) :
    ∀ fuel (cs : List Char), cs.length ≤ fuel →
      (∀ n ∈ extractGo fuel cs, ctx.vars n = none) →
      interpGo ctx fuel cs = cs := by
  intro fuel
  induction fuel with
  | zero => intro cs _ _; rfl
  | succ f ih =>
    intro cs hlen hnames
    match cs with
    | [] => rfl
    | c :: cs2 =>
      cases htm : tryMatch (c :: cs2) with
      | none =>
        have hnames2 : ∀ n ∈ extractGo f cs2, ctx.vars n = none := by
          intro n hn
          exact hnames n (by simp only [extractGo, htm]; exact hn)
        have hstep : interpGo ctx (f + 1) (c :: cs2) = c :: interpGo ctx f cs2 := by
          simp only [interpGo, htm]
        rw [hstep, ih cs2 (Nat.le_of_succ_le_succ (by simpa using hlen)) hnames2]
      | some pr =>
        obtain ⟨content, rest⟩ := pr
        obtain ⟨hcs, -⟩ := tryMatch_eq htm
        have hnhead : ctx.vars (trimString (String.mk content)) = none := by
          apply hnames
          simp only [extractGo, htm]
          exact List.mem_cons_self _ _
        have hrest : rest.length ≤ f := by
          have : (c :: cs2).length = content.length + rest.length + 4 := by
            rw [hcs]; simp; omega
          omega
        have hnames2 : ∀ n ∈ extractGo f rest, ctx.vars n = none := by
          intro n hn
          apply hnames
          simp only [extractGo, htm]
          exact List.mem_cons_of_mem _ hn
        have hstep : interpGo ctx (f + 1) (c :: cs2) =
            replaceFor ctx content ++ interpGo ctx f rest := by
          simp only [interpGo, htm]
        rw [hstep, ih rest hrest hnames2]
        rw [replaceFor, hnhead, hcs]
        simp

/-- The all-unbound interpolation context used in concrete checks. -/
def ctxUnbound : InterpolationContext := ⟨fun _ => none⟩

/-- Claim C9: interpolateString is idempotent on unresolved placeholders.
A placeholder whose trimmed name is unbound in the context is left as the
original placeholder text; in particular interpolating a lone unbound
placeholder returns it unchanged; a template all of whose placeholder
names are unbound is returned unchanged; and re-applying interpolateString
to its own output is a no-op when no further substitutions apply, that is
when every placeholder name occurring in the output is unbound. -/
theorem c9_interpolation_unbound_idempotent :
    (interpolateString "\x7b\x7bX\x7d\x7d" ctxUnbound = "\x7b\x7bX\x7d\x7d")
    ∧ (∀ (t : String) (ctx : InterpolationContext),
        (∀ n ∈ extractVariableNames t, ctx.vars n = none) → interpolateString t ctx = t)
    ∧ (∀ (t : String) (ctx : InterpolationContext),
        (∀ n ∈ extractVariableNames (interpolateString t ctx), ctx.vars n = none) →
          interpolateString (interpolateString t ctx) ctx = interpolateString t ctx) := by
  have key : ∀ (t : String) (ctx : InterpolationContext),
      (∀ n ∈ extractVariableNames t, ctx.vars n = none) → interpolateString t ctx = t := by
    intro t ctx h
    have hnames : ∀ n ∈ extractGo t.data.length t.data, ctx.vars n = none := by
      intro n hn
      exact h n ((mem_dedupFirstSeen _ _).mpr hn)
    unfold interpolateString
    rw [interpGo_unbound ctx t.data.length t.data (le_refl _) hnames]
  exact ⟨by decide, key, fun t ctx h => key _ ctx h⟩

/-- Witness for claim C9: the theorem applied to a concrete template whose
only placeholder name is unbound in a concrete context. -/
theorem c9_interpolation_unbound_idempotent_witness :
    (∀ n ∈ extractVariableNames "a \x7b\x7bX\x7d\x7d b", ctxUnbound.vars n = none) ∧
      interpolateString "a \x7b\x7bX\x7d\x7d b" ctxUnbound = "a \x7b\x7bX\x7d\x7d b" :=
  ⟨fun _ _ => rfl, c9_interpolation_unbound_idempotent.2.1 _ ctxUnbound (fun _ _ => rfl)⟩

/-! ## Data model of the request executor (src/types/index.ts, request.ts) -/

/-- Header from the types module: only enabled headers reach the wire. -/
structure Header where
  id : String
  key : String
  value : String
  enabled : Bool
deriving DecidableEq

/-- AuthMode of AuthConfig ("none" is called noAuth here because none is
taken by Option). -/
inductive AuthMode where
  | noAuth
  | bearer
  | basic
  | apiKey
deriving DecidableEq

/-- Bearer branch of AuthConfig. -/
structure BearerAuth where
  token : String
deriving DecidableEq

/-- Basic branch of AuthConfig. -/
structure BasicAuth where
  username : String
  password : String
deriving DecidableEq

/-- Destination of an api-key credential. -/
inductive ApiKeyAddTo where
  | toHeader
  | toQuery
deriving DecidableEq

/-- Api-key branch of AuthConfig. -/
structure ApiKeyAuth where
  key : String
  value : String
  addTo : ApiKeyAddTo
deriving DecidableEq

/-- AuthConfig: a mode tag plus optional per-mode branches; inactive
branches may stay populated, as in the source. -/
structure AuthConfig where
  mode : AuthMode
  bearer : Option BearerAuth := none
  basic : Option BasicAuth := none
  apiKey : Option ApiKeyAuth := none
deriving DecidableEq

/-- FileMapping: the binary handle is opaque, modelled by an optional
name; some means a file is bound. -/
structure FileMapping where
  id : String
  variablePath : String
  file : Option String
  fileName : String
deriving DecidableEq

/-- The five configurable HTTP methods of RequestOptions. -/
inductive HttpMethod where
  | get
  | post
  | put
  | patch
  | delete
deriving DecidableEq

/-- RequestOptions from request.ts lines 4-16.  The variables JSON text
field is called variablesText here because the source name is reserved
in Lean. -/
structure RequestOptions where
  endpoint : String
  query : String
  variablesText : String
  operationName : Option String
  headers : List Header
  auth : AuthConfig
  httpMethod : HttpMethod
  fileMappings : List FileMapping
  useProxy : Bool
  timeout : Nat
  context : InterpolationContext

/-- interpolateHeaders from interpolation.ts lines 28-37. -/
def interpolateHeaders (hs : List Header) (ctx : InterpolationContext) : List Header :=
  hs.map (fun h =>
    { h with key := interpolateString h.key ctx, value := interpolateString h.value ctx })

/-- interpolateAuth from interpolation.ts lines 52-80: every present
branch is interpolated field-wise, regardless of the active mode. -/
def interpolateAuth (auth : AuthConfig) (ctx : InterpolationContext) : AuthConfig :=
  { mode := auth.mode,
    bearer := auth.bearer.map (fun b => ⟨interpolateString b.token ctx⟩),
    basic := auth.basic.map
      (fun b => ⟨interpolateString b.username ctx, interpolateString b.password ctx⟩),
    apiKey := auth.apiKey.map
      (fun k => ⟨interpolateString k.key ctx, interpolateString k.value ctx, k.addTo⟩) }

/-! ## JavaScript plain-object string maps (Record of string to string)

Assignment replaces the value of an existing key in place and otherwise
appends in insertion order; delete removes the key. -/

/-- Object property assignment. -/
def recordSet : List (String × String) → String → String → List (String × String)
  | [], k, v => [(k, v)]
  | p :: rest, k, v => if p.1 = k then (k, v) :: rest else p :: recordSet rest k v

/-- Object property deletion: remove every entry with the given key. -/
def recordDelete : List (String × String) → String → List (String × String)
  | [], _ => []
  | p :: rest, k => if p.1 = k then recordDelete rest k else p :: recordDelete rest k

/-- Object property lookup. -/
def recordGet : List (String × String) → String → Option String
  | [], _ => none
  | p :: rest, k => if p.1 = k then some p.2 else recordGet rest k

/-- The base64 alphabet used by btoa. -/
def base64Alphabet : List Char :=
  "ABCDEFGHIJKLMNOPQRSTUVWXYZabcdefghijklmnopqrstuvwxyz0123456789+/".data

/-- One base64 digit. -/
def base64Char (n : Nat) : Char := base64Alphabet.getD n '='

/-- Base64-encode a byte list, three bytes to four digits, padded. -/
def base64Go : List Nat → List Char
  | [] => []
  | [b1] => [base64Char (b1 / 4), base64Char (b1 % 4 * 16), '=', '=']
  | [b1, b2] =>
    [base64Char (b1 / 4), base64Char (b1 % 4 * 16 + b2 / 16), base64Char (b2 % 16 * 4), '=']
  | b1 :: b2 :: b3 :: rest =>
    base64Char (b1 / 4) :: base64Char (b1 % 4 * 16 + b2 / 16) ::
      base64Char (b2 % 16 * 4 + b3 / 64) :: base64Char (b3 % 64) :: base64Go rest

/-- The window.btoa primitive: base64 over the latin-1 code units of the
input string. -/
def btoa (s : String) : String :=
  String.mk (base64Go (s.data.map (fun c => c.toNat % 256)))

/-- buildAuthHeader from request.ts lines 135-155.  JavaScript truthiness
of the credential strings is nonemptiness. -/
def buildAuthHeader (auth : AuthConfig) : Option (String × String) :=
  match auth.mode with
  | AuthMode.bearer =>
    match auth.bearer with
    | some b => if b.token ≠ "" then some ("Authorization", "Bearer " ++ b.token) else none
    | none => none
  | AuthMode.basic =>
    match auth.basic with
    | some b =>
      if b.username ≠ "" ∧ b.password ≠ "" then
        some ("Authorization", "Basic " ++ btoa (b.username ++ ":" ++ b.password))
      else none
    | none => none
  | AuthMode.apiKey =>
    match auth.apiKey with
    | some k =>
      if k.key ≠ "" ∧ k.value ≠ "" ∧ k.addTo = ApiKeyAddTo.toHeader then
        some (k.key, k.value)
      else none
    | none => none
  | AuthMode.noAuth => none

/-- buildApiKeyQueryParam from request.ts lines 157-162, combined with
the decode-then-set step of its caller (lines 183-187): the source
encodes key and value with encodeURIComponent, joins them with an equals
sign, splits on the equals sign and decodes both halves again before
setting them, and since encodeURIComponent escapes the equals sign this
round-trips to the plain pair. -/
def buildApiKeyQueryParam (auth : AuthConfig) : Option (String × String) :=
  match auth.apiKey with
  | some k =>
    if auth.mode = AuthMode.apiKey ∧ k.addTo = ApiKeyAddTo.toQuery ∧ k.key ≠ "" ∧ k.value ≠ "" then
      some (k.key, k.value)
    else none
  | none => none

/-- The header-accumulation loop of buildHeaders (request.ts lines
106-115): enabled interpolated headers are assigned, under proxy mode
with their key renamed behind the X-GraphIt-Header- marker. -/
def addAppHeaders (m : List (String × String)) (hs : List Header) (useProxy : Bool) :
    List (String × String) :=
  match hs with
  | [] => m
  | h :: rest =>
    addAppHeaders
      (if h.enabled then
        recordSet m (if useProxy then "X-GraphIt-Header-" ++ h.key else h.key) h.value
      else m)
      rest useProxy

/-- buildHeaders from request.ts lines 95-133. -/
def buildHeaders (headers : List Header) (auth : AuthConfig) (ctx : InterpolationContext)
    (useProxy : Bool) (targetEndpoint : String) : List (String × String) :=
  let base := [("Content-Type", "application/json")]
  let m1 := addAppHeaders base (interpolateHeaders headers ctx) useProxy
  let m2 :=
    match buildAuthHeader (interpolateAuth auth ctx) with
    | some kv => recordSet m1 (if useProxy then "X-GraphIt-Header-" ++ kv.1 else kv.1) kv.2
    | none => m1
  if useProxy then recordSet m2 "X-GraphIt-Target" targetEndpoint else m2

/-! ## The wire model: what executeRequest hands to the host

Host primitives live in a World record: the WHATWG URL constructor (its
search-parameter list on success, none when it throws), fetch, JSON.parse
on response bodies (after the unchecked cast to GraphQLResponse), the
JSON.parse success oracle for variables text, and the clock readings. -/

/-- The three body encodings of the executor. -/
inductive EncodingKind where
  | getQuery
  | postJson
  | multipartForm
deriving DecidableEq

/-- One outbound HTTP call as handed to fetch. -/
structure WireRequest where
  url : String
  httpVerb : String
  params : List (String × String)
  headers : List (String × String)
  kind : EncodingKind
deriving DecidableEq

/-- An HTTP response as observed by the executor: status, status text,
response headers in arrival order, and the body already read as text. -/
structure HttpResponse where
  status : Nat
  statusText : String
  headers : List (String × String)
  body : String
deriving DecidableEq

/-- Outcome of one fetch: a response, or a rejection (network failure or
abort) carrying the thrown message. -/
inductive FetchOutcome where
  | ok : HttpResponse → FetchOutcome
  | err : String → FetchOutcome
deriving DecidableEq

/-- One entry of the errors array of a GraphQL response. -/
structure GqlError where
  message : String
deriving DecidableEq

/-- GraphQLResponse: the data field is carried abstractly as its JSON
text when present; the errors array carries its message entries. -/
structure GraphQLResponse where
  dataJson : Option String
  errors : Option (List GqlError)
deriving DecidableEq

/-- ResponseStats from the types module. -/
structure ResponseStats where
  status : Nat
  statusText : String
  duration : Nat
  size : Nat
  timestamp : Nat
deriving DecidableEq

/-- ResponseHeader from the types module. -/
structure ResponseHeader where
  key : String
  value : String
deriving DecidableEq

/-- RequestResult from the types module. -/
structure RequestResult where
  response : Option GraphQLResponse
  headers : List ResponseHeader
  stats : Option ResponseStats
  error : Option String
deriving DecidableEq

/-- The host environment of one executeRequest run. -/
structure World where
  urlParse : String → Option (List (String × String))
  fetch : WireRequest → FetchOutcome
  jsonParse : String → Option GraphQLResponse
  varsParse : String → Option Unit
  elapsed : Nat
  now : Nat

/-- URLSearchParams.set: replace the value of the first entry with the
given name, dropping any later entries of that name; append when the
name is absent. -/
def searchParamsSet : List (String × String) → String → String → List (String × String)
  | [], k, v => [(k, v)]
  | p :: rest, k, v =>
    if p.1 = k then (k, v) :: recordDelete rest k
    else p :: searchParamsSet rest k v

/-- Number of query parameters with the given name. -/
def countKey : List (String × String) → String → Nat
  | [], _ => 0
  | p :: rest, k => (if p.1 = k then 1 else 0) + countKey rest k

/-- Which of the three transport functions executeRequest dispatches to. -/
inductive RequestPath where
  | viaGet
  | viaMultipart
  | viaPost
deriving DecidableEq

/-- The hasFiles test of executeRequest line 29: some file mapping has a
bound file. -/
def hasFiles (opts : RequestOptions) : Bool :=
  opts.fileMappings.any (fun m => m.file.isSome)

/-- The dispatch of executeRequest lines 33-39, in source order: the GET
test comes first, the file test second. -/
def selectPath (opts : RequestOptions) : RequestPath :=
  if opts.httpMethod = HttpMethod.get then RequestPath.viaGet
  else if hasFiles opts then RequestPath.viaMultipart
  else RequestPath.viaPost

/-- UTF-8 byte length of a string: the size stat computed by the
TextEncoder encoding of the body text. -/
def byteLength (s : String) : Nat :=
  s.data.foldl (fun n c => n + c.utf8Size) 0

/-- The search-parameter assembly of the non-proxy GET branch
(request.ts lines 173-187): onto the search parameters the endpoint URL
already carries, set query, set variables only when the resolved
variables text is neither empty nor the literal two-brace object, set
operationName when present and non-empty, and set the api-key query
credential when one applies.  The operationName step: -/
def applyOpNameParam (opName : Option String) (ps : List (String × String)) :
    List (String × String) :=
  match opName with
  | some op => if op ≠ "" then searchParamsSet ps "operationName" op else ps
  | none => ps

/-- The conditional api-key query credential step of the pipeline. -/
def applyApiKeyParam (akp : Option (String × String)) (ps : List (String × String)) :
    List (String × String) :=
  match akp with
  | some kv => searchParamsSet ps kv.1 kv.2
  | none => ps

def getParamsPipeline (ps0 : List (String × String)) (q vt : String)
    (opName : Option String) (akp : Option (String × String)) : List (String × String) :=
  let ps1 := searchParamsSet ps0 "query" q
  let ps2 := if vt ≠ "" ∧ vt ≠ "\x7b\x7d" then searchParamsSet ps1 "variables" vt else ps1
  applyApiKeyParam akp (applyOpNameParam opName ps2)

/-- executeGetRequest from request.ts lines 164-213, up to the fetch
call.  Non-proxy: the endpoint URL keeps its own search parameters and
receives the pipeline above.  Proxy: the relative proxy URL is given to
the URL constructor, a method-override header is added, and the body
parses the variables text with an uncaught JSON.parse.  Content-Type is
removed in both branches. -/
def buildGet (endpoint : String) (opts : RequestOptions) (headers0 : List (String × String))
    (w : World) : Except String WireRequest :=
  let vtext := interpolateString opts.variablesText opts.context
  if opts.useProxy then
    match w.urlParse "/api/proxy" with
    | none => Except.error "Failed to construct URL"
    | some _ =>
      let hs := recordDelete (recordSet headers0 "X-GraphIt-Method" "GET") "Content-Type"
      if vtext ≠ "" ∧ (w.varsParse vtext).isNone then Except.error "Unexpected token in JSON"
      else Except.ok ⟨"/api/proxy", "POST", [], hs, EncodingKind.postJson⟩
  else
    match w.urlParse endpoint with
    | none => Except.error "Failed to construct URL"
    | some ps0 =>
      Except.ok
        ⟨endpoint, "GET",
         getParamsPipeline ps0 opts.query vtext opts.operationName
           (buildApiKeyQueryParam (interpolateAuth opts.auth opts.context)),
         recordDelete headers0 "Content-Type", EncodingKind.getQuery⟩

/-- executePostRequest from request.ts lines 215-252, up to the fetch
call: a JSON body posted to the endpoint, or to the relative proxy URL
under proxy mode; a variables parse failure is caught and degrades to an
absent variables field, so this builder never throws. -/
def buildPost (endpoint : String) (opts : RequestOptions) (headers0 : List (String × String)) :
    WireRequest :=
  ⟨if opts.useProxy then "/api/proxy" else endpoint, "POST", [], headers0, EncodingKind.postJson⟩

/-- executeMultipartRequest from request.ts lines 254-314, up to the
fetch call: a form-data body posted directly to the endpoint (this path
ignores the proxy flag); a variables parse failure is caught and
degrades to an empty object; Content-Type is removed so the transport
sets the multipart boundary. -/
def buildMultipart (endpoint : String) (_opts : RequestOptions)
    (headers0 : List (String × String)) : WireRequest :=
  ⟨endpoint, "POST", [], recordDelete headers0 "Content-Type", EncodingKind.multipartForm⟩

/-- The pre-fetch phase of executeRequest lines 22-39: interpolate and
validate the endpoint, build the header map, dispatch on method and file
presence.  An error value is a thrown exception reaching the catch of
executeRequest. -/
def buildWire (opts : RequestOptions) (w : World) : Except String WireRequest :=
  let endpoint := interpolateString opts.endpoint opts.context
  if endpoint = "" ∨ (w.urlParse endpoint).isNone then Except.error "Invalid endpoint URL"
  else
    let hs := buildHeaders opts.headers opts.auth opts.context opts.useProxy endpoint
    match selectPath opts with
    | RequestPath.viaGet => buildGet endpoint opts hs w
    | RequestPath.viaMultipart => Except.ok (buildMultipart endpoint opts hs)
    | RequestPath.viaPost => Except.ok (buildPost endpoint opts hs)

/-- The synthetic response produced when the body fails strict JSON
parsing (request.ts line 54). -/
def parseFailureResponse : GraphQLResponse :=
  ⟨none, some [⟨"Failed to parse response as JSON"⟩]⟩

/-- The catch branch of executeRequest lines 69-83. -/
def errorResult (msg : String) (w : World) : RequestResult :=
  ⟨none, [], some ⟨0, "Error", w.elapsed, 0, w.now⟩, some msg⟩

/-- The response-arrival branch of executeRequest lines 41-68. -/
def successResult (resp : HttpResponse) (w : World) : RequestResult :=
  ⟨some
    (match w.jsonParse resp.body with
      | some g => g
      | none => parseFailureResponse),
   resp.headers.map (fun p => ⟨p.1, p.2⟩),
   some ⟨resp.status, resp.statusText, w.elapsed, byteLength resp.body, w.now⟩,
   none⟩

/-- executeRequest from request.ts lines 18-84. -/
def executeRequest (opts : RequestOptions) (w : World) : RequestResult :=
  match buildWire opts w with
  | Except.error msg => errorResult msg w
  | Except.ok req =>
    match w.fetch req with
    | FetchOutcome.err msg => errorResult msg w
    | FetchOutcome.ok resp => successResult resp w

/-- The outbound HTTP calls performed by one executeRequest run. -/
def executeRequestCalls (opts : RequestOptions) (w : World) : List WireRequest :=
  match buildWire opts w with
  | Except.error _ => []
  | Except.ok req => [req]

/-! ## Concrete fixtures used by witnesses and counterexamples -/

/-- A minimal auth configuration with no credentials. -/
def noAuth : AuthConfig := ⟨AuthMode.noAuth, none, none, none⟩

/-- A plain POST request against a fixed endpoint, used as the base of
the concrete checks. -/
def baseOpts : RequestOptions :=
  ⟨"https://x.test/graphql", "q", "\x7b\x7d", none, [], noAuth, HttpMethod.post, [],
   false, 30000, ctxUnbound⟩

/-- A host where only the fixed endpoint is a valid URL, every fetch
succeeds with an OK response whose body is not JSON, and variables text
always parses. -/
def baseWorld : World :=
  ⟨fun s => if s = "https://x.test/graphql" then some [] else none,
   fun _ => FetchOutcome.ok ⟨200, "OK", [], "hello"⟩,
   fun _ => none,
   fun _ => some (),
   5, 1111⟩

/-! ## Claim C1 -/

/-- A GET-configured request with a bound file. -/
def c1Opts : RequestOptions :=
  { baseOpts with
    httpMethod := HttpMethod.get,
    fileMappings := [⟨"1", "file.upload", some "avatar.png", "avatar.png"⟩] }

/-- Claim C1 as stated is false: with a bound file and configured method
GET, executeRequest does not select multipart encoding; the dispatch
tests the GET method before the file test, so the request goes out as a
query-string GET. -/
theorem c1_get_with_files_counterexample :
    hasFiles c1Opts = true ∧ selectPath c1Opts ≠ RequestPath.viaMultipart ∧
      (executeRequestCalls c1Opts baseWorld).map (fun r => (r.httpVerb, r.kind)) =
        [("GET", EncodingKind.getQuery)] :=
  ⟨rfl, by decide, rfl⟩

/-- Claim C1 amended: file presence selects multipart encoding only when
the configured HTTP method is not GET; with method GET the dispatch
takes the GET path even when a file mapping has a bound file. -/
theorem c1_files_select_multipart_unless_get (opts : RequestOptions)
    (hf : hasFiles opts = true) (hm : opts.httpMethod ≠ HttpMethod.get) :
    selectPath opts = RequestPath.viaMultipart := by
  unfold selectPath
  rw [if_neg hm, if_pos hf]

/-- A POST-configured request with a bound file. -/
def c1PostOpts : RequestOptions :=
  { baseOpts with
    fileMappings := [⟨"1", "file.upload", some "avatar.png", "avatar.png"⟩] }

/-- Witness for the amended claim C1 at a concrete POST request with a
bound file. -/
theorem c1_files_select_multipart_unless_get_witness :
    hasFiles c1PostOpts = true ∧ c1PostOpts.httpMethod ≠ HttpMethod.get ∧
      selectPath c1PostOpts = RequestPath.viaMultipart :=
  ⟨rfl, by decide, c1_files_select_multipart_unless_get c1PostOpts rfl (by decide)⟩

/-! ## Claim C3 -/

/-- Claim C3: executeRequest is total over its failure paths; for every
request options and every host behaviour it returns a RequestResult in
which either the error field is empty and a response with stats is
present, or the error field is populated while the response is empty and
the stats carry status 0, status text Error and size 0.  No exception
escapes: every throw inside the model is an Except value consumed here. -/
theorem c3_executeRequest_never_throws (opts : RequestOptions) (w : World) :
    ((executeRequest opts w).error = none ∧ (∃ g, (executeRequest opts w).response = some g) ∧
      (∃ st, (executeRequest opts w).stats = some st))
    ∨ (∃ m, (executeRequest opts w).error = some m ∧ (executeRequest opts w).response = none ∧
        (executeRequest opts w).stats = some ⟨0, "Error", w.elapsed, 0, w.now⟩) := by
  unfold executeRequest
  cases buildWire opts w with
  | error m => exact Or.inr ⟨m, rfl, rfl, rfl⟩
  | ok req =>
    dsimp only
    cases w.fetch req with
    | err m => exact Or.inr ⟨m, rfl, rfl, rfl⟩
    | ok resp => exact Or.inl ⟨rfl, ⟨_, rfl⟩, ⟨_, rfl⟩⟩

/-! ## Claim C4 -/

/-- Claim C4: when the built request reaches the wire and the response
body fails strict JSON parsing, executeRequest reports transport-level
success: the response field is a synthetic GraphQL response with exactly
one errors entry whose message is "Failed to parse response as JSON",
the error field stays empty, and the stats carry the received status,
status text, measured duration and byte size of the body. -/
theorem c4_nonjson_body_is_transport_success (opts : RequestOptions) (w : World)
    (req : WireRequest) (resp : HttpResponse)
    (hbw : buildWire opts w = Except.ok req)
    (hfetch : w.fetch req = FetchOutcome.ok resp)
    (hparse : w.jsonParse resp.body = none) :
    executeRequest opts w =
      ⟨some ⟨none, some [⟨"Failed to parse response as JSON"⟩]⟩,
       resp.headers.map (fun p => ⟨p.1, p.2⟩),
       some ⟨resp.status, resp.statusText, w.elapsed, byteLength resp.body, w.now⟩,
       none⟩ := by
  unfold executeRequest
  rw [hbw]
  dsimp only
  rw [hfetch]
  unfold successResult
  dsimp only
  rw [hparse]
  rfl

/-- The wire request built from the base options in the base world. -/
def c4Req : WireRequest :=
  ⟨"https://x.test/graphql", "POST", [], [("Content-Type", "application/json")],
   EncodingKind.postJson⟩

/-- The non-JSON response served by the base world. -/
def c4Resp : HttpResponse := ⟨200, "OK", [], "hello"⟩

/-- Witness for claim C4: the base world serves the body "hello", which
fails JSON parsing, and the result is the synthetic single-error
response with the transport stats of the 200 response. -/
theorem c4_nonjson_body_is_transport_success_witness :
    baseWorld.jsonParse c4Resp.body = none ∧
      executeRequest baseOpts baseWorld =
        ⟨some ⟨none, some [⟨"Failed to parse response as JSON"⟩]⟩, [],
         some ⟨200, "OK", 5, 5, 1111⟩, none⟩ :=
  ⟨rfl, c4_nonjson_body_is_transport_success baseOpts baseWorld c4Req c4Resp rfl rfl rfl⟩

/-! ## Claim C5 -/

/-- Claim C5: when the interpolated endpoint is empty or fails URL
validation, executeRequest performs no network call and returns the
fail-fast result: error "Invalid endpoint URL", no response, status 0,
status text Error, size 0. -/
theorem c5_invalid_endpoint_fails_fast (opts : RequestOptions) (w : World)
    (h : interpolateString opts.endpoint opts.context = "" ∨
      w.urlParse (interpolateString opts.endpoint opts.context) = none) :
    executeRequest opts w =
      ⟨none, [], some ⟨0, "Error", w.elapsed, 0, w.now⟩, some "Invalid endpoint URL"⟩ ∧
    executeRequestCalls opts w = [] := by
  have hcond : interpolateString opts.endpoint opts.context = "" ∨
      (w.urlParse (interpolateString opts.endpoint opts.context)).isNone = true := by
    rcases h with h | h
    · exact Or.inl h
    · exact Or.inr (by rw [h]; rfl)
  have hbw : buildWire opts w = Except.error "Invalid endpoint URL" := by
    simp only [buildWire]
    rw [if_pos hcond]
  constructor
  · unfold executeRequest
    rw [hbw]
    rfl
  · unfold executeRequestCalls
    rw [hbw]

/-- Request options whose endpoint is not a URL. -/
def c5Opts : RequestOptions := { baseOpts with endpoint := "not a url" }

/-- Witness for claim C5 at the concrete endpoint "not a url", which the
URL oracle of the base world rejects. -/
theorem c5_invalid_endpoint_fails_fast_witness :
    baseWorld.urlParse (interpolateString c5Opts.endpoint c5Opts.context) = none ∧
      executeRequest c5Opts baseWorld =
        ⟨none, [], some ⟨0, "Error", 5, 0, 1111⟩, some "Invalid endpoint URL"⟩ ∧
      executeRequestCalls c5Opts baseWorld = [] :=
  ⟨rfl,
   (c5_invalid_endpoint_fails_fast c5Opts baseWorld (Or.inr rfl)).1,
   (c5_invalid_endpoint_fails_fast c5Opts baseWorld (Or.inr rfl)).2⟩

/-! ## Claim C7: record lemmas and the proxy renaming theorem -/

theorem recordGet_set_self (m : List (String × String)) (k v : String) :
    recordGet (recordSet m k v) k = some v := by
  induction m with
  | nil => simp [recordSet, recordGet]
  | cons p rest ih =>
    by_cases h : p.1 = k
    · simp [recordSet, recordGet, h]
    · simp [recordSet, recordGet, h, ih]

theorem recordGet_set_isSome (m : List (String × String)) (k k2 v : String)
    (h : (recordGet m k).isSome = true) :
    (recordGet (recordSet m k2 v) k).isSome = true := by
  induction m with
  | nil => simp [recordGet] at h
  | cons p rest ih =>
    by_cases h2 : p.1 = k2
    · by_cases h1 : k2 = k
      · simp [recordSet, recordGet, h2, h1]
      · simp only [recordSet, if_pos h2, recordGet, if_neg h1]
        simp only [recordGet] at h
        rw [if_neg (fun hc => h1 (h2 ▸ hc))] at h
        exact h
    · simp only [recordSet, if_neg h2, recordGet]
      by_cases h1 : p.1 = k
      · simp [h1]
      · simp only [if_neg h1]
        simp only [recordGet, if_neg h1] at h
        exact ih h

theorem addAppHeaders_isSome (hs : List Header) :
    ∀ (m : List (String × String)) (k : String) (p : Bool),
      (recordGet m k).isSome = true → (recordGet (addAppHeaders m hs p) k).isSome = true := by
  induction hs with
  | nil => intro m k p h; exact h
  | cons hd rest ih =>
    intro m k p h
    simp only [addAppHeaders]
    apply ih
    by_cases he : hd.enabled
    · rw [if_pos he]
      exact recordGet_set_isSome m k _ _ h
    · rw [if_neg he]
      exact h

theorem addAppHeaders_mem (hs : List Header) :
    ∀ (m : List (String × String)) (h : Header), h ∈ hs → h.enabled = true →
      (recordGet (addAppHeaders m hs true) ("X-GraphIt-Header-" ++ h.key)).isSome = true := by
  induction hs with
  | nil => intro m h hm; exact absurd hm (List.not_mem_nil h)
  | cons hd rest ih =>
    intro m h hm he
    rcases List.mem_cons.mp hm with heq | hmem
    · subst heq
      simp only [addAppHeaders, if_pos he, if_pos rfl, if_true]
      apply addAppHeaders_isSome
      rw [recordGet_set_self]
      rfl
    · simp only [addAppHeaders]
      exact ih _ h hmem he

/-- Claim C7: under proxy mode, the header map built by executeRequest
always carries X-GraphIt-Target bound to the interpolated endpoint, and
for every enabled application header, and for the derived auth header
when one exists, the map carries the key renamed behind the
X-GraphIt-Header- marker (the renamed key uses the interpolated original
header name). -/
theorem c7_proxy_header_renaming (headers : List Header) (auth : AuthConfig)
    (ctx : InterpolationContext) (endpoint : String) :
    recordGet (buildHeaders headers auth ctx true endpoint) "X-GraphIt-Target" = some endpoint ∧
    (∀ h ∈ headers, h.enabled = true →
      (recordGet (buildHeaders headers auth ctx true endpoint)
        ("X-GraphIt-Header-" ++ interpolateString h.key ctx)).isSome = true) ∧
    (∀ ak av, buildAuthHeader (interpolateAuth auth ctx) = some (ak, av) →
      (recordGet (buildHeaders headers auth ctx true endpoint)
        ("X-GraphIt-Header-" ++ ak)).isSome = true) := by
  refine ⟨?_, ?_, ?_⟩
  · simp only [buildHeaders]
    cases buildAuthHeader (interpolateAuth auth ctx) with
    | none => simp only [if_pos rfl]; exact recordGet_set_self ..
    | some kv => simp only [if_pos rfl]; exact recordGet_set_self ..
  · intro h hm he
    simp only [buildHeaders]
    have hmem : { h with key := interpolateString h.key ctx, value := interpolateString h.value ctx } ∈
        interpolateHeaders headers ctx :=
      List.mem_map_of_mem _ hm
    have hbase := addAppHeaders_mem (interpolateHeaders headers ctx) [("Content-Type", "application/json")] _ hmem he
    cases buildAuthHeader (interpolateAuth auth ctx) with
    | none =>
      simp only [if_pos rfl]
      exact recordGet_set_isSome _ _ _ _ hbase
    | some kv =>
      simp only [if_pos rfl]
      exact recordGet_set_isSome _ _ _ _ (recordGet_set_isSome _ _ _ _ hbase)
  · intro ak av haut
    simp only [buildHeaders]
    rw [haut]
    simp only [if_pos rfl, if_true]
    apply recordGet_set_isSome
    rw [recordGet_set_self]
    rfl

/-- A concrete enabled header used by the claim C7 witness. -/
def c7Header : Header := ⟨"1", "X-Api", "secret", true⟩

/-- A concrete bearer auth configuration used by the claim C7 witness. -/
def c7Auth : AuthConfig := ⟨AuthMode.bearer, some ⟨"tok"⟩, none, none⟩

/-- Witness for claim C7 at one enabled header and a bearer credential. -/
theorem c7_proxy_header_renaming_witness :
    recordGet (buildHeaders [c7Header] c7Auth ctxUnbound true "https://t.example")
        "X-GraphIt-Target" = some "https://t.example" ∧
    (recordGet (buildHeaders [c7Header] c7Auth ctxUnbound true "https://t.example")
        "X-GraphIt-Header-X-Api").isSome = true ∧
    (recordGet (buildHeaders [c7Header] c7Auth ctxUnbound true "https://t.example")
        "X-GraphIt-Header-Authorization").isSome = true :=
  ⟨(c7_proxy_header_renaming [c7Header] c7Auth ctxUnbound "https://t.example").1,
   (c7_proxy_header_renaming [c7Header] c7Auth ctxUnbound "https://t.example").2.1
     c7Header (List.mem_cons_self _ _) rfl,
   (c7_proxy_header_renaming [c7Header] c7Auth ctxUnbound "https://t.example").2.2
     "Authorization" "Bearer tok" rfl⟩

/-! ## Claim C10 -/

/-- Claim C10: the derived auth header is emitted exactly when the
active mode has non-empty credentials: bearer needs a non-empty token,
basic needs non-empty username and password, api-key needs non-empty key
and value with the header destination; in every other case
buildAuthHeader is empty, and then the header map of executeRequest is
the same as with no auth configured at all. -/
theorem c10_auth_header_emission :
    (∀ a : AuthConfig, (buildAuthHeader a).isSome = true ↔
      ((a.mode = AuthMode.bearer ∧ ∃ b, a.bearer = some b ∧ b.token ≠ "") ∨
       (a.mode = AuthMode.basic ∧ ∃ b, a.basic = some b ∧ b.username ≠ "" ∧ b.password ≠ "") ∨
       (a.mode = AuthMode.apiKey ∧ ∃ k, a.apiKey = some k ∧
         k.key ≠ "" ∧ k.value ≠ "" ∧ k.addTo = ApiKeyAddTo.toHeader))) ∧
    (∀ (a : AuthConfig) (hs : List Header) (ctx : InterpolationContext) (p : Bool) (ep : String),
      buildAuthHeader (interpolateAuth a ctx) = none →
      buildHeaders hs a ctx p ep = buildHeaders hs noAuth ctx p ep) := by
  constructor
  · intro a
    obtain ⟨mo, ob, oba, oak⟩ := a
    cases mo with
    | noAuth => simp [buildAuthHeader]
    | bearer =>
      cases ob with
      | none => simp [buildAuthHeader]
      | some b =>
        by_cases ht : b.token = "" <;> simp [buildAuthHeader, ht]
    | basic =>
      cases oba with
      | none => simp [buildAuthHeader]
      | some b =>
        by_cases hu : b.username = ""
        · simp [buildAuthHeader, hu]
        · by_cases hp : b.password = "" <;> simp [buildAuthHeader, hu, hp]
    | apiKey =>
      cases oak with
      | none => simp [buildAuthHeader]
      | some k =>
        by_cases hk : k.key = ""
        · simp [buildAuthHeader, hk]
        · by_cases hv : k.value = ""
          · simp [buildAuthHeader, hk, hv]
          · by_cases ha : k.addTo = ApiKeyAddTo.toHeader <;> simp [buildAuthHeader, hk, hv, ha]
  · intro a hs ctx p ep hnone
    simp only [buildHeaders, hnone]
    rfl

/-- Witness for claim C10: a bearer configuration with a non-empty token
emits a header, and an all-empty bearer configuration yields the same
header map as no auth at all. -/
theorem c10_auth_header_emission_witness :
    (buildAuthHeader ⟨AuthMode.bearer, some ⟨"t"⟩, none, none⟩).isSome = true ∧
      buildHeaders [] ⟨AuthMode.bearer, some ⟨""⟩, none, none⟩ ctxUnbound false "e" =
        buildHeaders [] noAuth ctxUnbound false "e" :=
  ⟨(c10_auth_header_emission.1 _).mpr (Or.inl ⟨rfl, ⟨"t"⟩, rfl, by decide⟩),
   c10_auth_header_emission.2 _ [] ctxUnbound false "e" rfl⟩

/-! ## Claim C8: search-parameter lemmas -/

theorem countKey_recordDelete_self (ps : List (String × String)) (k : String) :
    countKey (recordDelete ps k) k = 0 := by
  induction ps with
  | nil => rfl
  | cons p rest ih =>
    by_cases h : p.1 = k
    · simp only [recordDelete, if_pos h]
      exact ih
    · simp only [recordDelete, if_neg h, countKey, if_neg h]
      omega

theorem countKey_recordDelete_other (ps : List (String × String)) (k k2 : String) (hne : k2 ≠ k) :
    countKey (recordDelete ps k2) k = countKey ps k := by
  induction ps with
  | nil => rfl
  | cons p rest ih =>
    by_cases h2 : p.1 = k2
    · have hk : p.1 ≠ k := fun hc => hne (h2 ▸ hc)
      simp only [recordDelete, if_pos h2, countKey, if_neg hk]
      omega
    · simp only [recordDelete, if_neg h2, countKey]
      omega

theorem countKey_set_self (ps : List (String × String)) (k v : String) :
    countKey (searchParamsSet ps k v) k = 1 := by
  induction ps with
  | nil => simp [searchParamsSet, countKey]
  | cons p rest ih =>
    by_cases h : p.1 = k
    · simp [searchParamsSet, if_pos h, countKey, countKey_recordDelete_self]
    · simp only [searchParamsSet, if_neg h, countKey, if_neg h]
      omega

theorem countKey_set_ne (ps : List (String × String)) (k k2 v : String) (hne : k2 ≠ k) :
    countKey (searchParamsSet ps k2 v) k = countKey ps k := by
  induction ps with
  | nil => simp [searchParamsSet, countKey, if_neg hne]
  | cons p rest ih =>
    by_cases h : p.1 = k2
    · have hk : p.1 ≠ k := fun hc => hne (h ▸ hc)
      simp only [searchParamsSet, if_pos h, countKey, if_neg hne, if_neg hk,
        countKey_recordDelete_other rest k k2 hne]
    · simp only [searchParamsSet, if_neg h, countKey]
      omega

theorem recordGet_recordDelete_other (ps : List (String × String)) (k k2 : String)
    (hne : k2 ≠ k) : recordGet (recordDelete ps k2) k = recordGet ps k := by
  induction ps with
  | nil => rfl
  | cons p rest ih =>
    by_cases h2 : p.1 = k2
    · have hk : p.1 ≠ k := fun hc => hne (h2 ▸ hc)
      simp only [recordDelete, if_pos h2, recordGet, if_neg hk]
      exact ih
    · simp only [recordDelete, if_neg h2, recordGet]
      by_cases hk : p.1 = k
      · simp [hk]
      · simp only [if_neg hk]
        exact ih

theorem recordGet_searchSet_self (ps : List (String × String)) (k v : String) :
    recordGet (searchParamsSet ps k v) k = some v := by
  induction ps with
  | nil => simp [searchParamsSet, recordGet]
  | cons p rest ih =>
    by_cases h : p.1 = k
    · simp [searchParamsSet, if_pos h, recordGet]
    · simp only [searchParamsSet, if_neg h, recordGet, if_neg h]
      exact ih

theorem recordGet_searchSet_ne (ps : List (String × String)) (k k2 v : String) (hne : k2 ≠ k) :
    recordGet (searchParamsSet ps k2 v) k = recordGet ps k := by
  induction ps with
  | nil => simp [searchParamsSet, recordGet, if_neg hne]
  | cons p rest ih =>
    by_cases h : p.1 = k2
    · have hk : p.1 ≠ k := fun hc => hne (h ▸ hc)
      simp only [searchParamsSet, if_pos h, recordGet, if_neg hne, if_neg hk]
      exact recordGet_recordDelete_other rest k k2 hne
    · simp only [searchParamsSet, if_neg h, recordGet]
      by_cases hk : p.1 = k
      · simp [hk]
      · simp only [if_neg hk]
        exact ih

theorem applyOpNameParam_variables (opName : Option String) (ps : List (String × String)) :
    countKey (applyOpNameParam opName ps) "variables" = countKey ps "variables" ∧
      recordGet (applyOpNameParam opName ps) "variables" = recordGet ps "variables" := by
  have hop : ("operationName" : String) ≠ "variables" := by decide
  cases opName with
  | none => exact ⟨rfl, rfl⟩
  | some op =>
    simp only [applyOpNameParam]
    by_cases hopne : op ≠ ""
    · rw [if_pos hopne, countKey_set_ne _ _ _ _ hop, recordGet_searchSet_ne _ _ _ _ hop]
      exact ⟨rfl, rfl⟩
    · rw [if_neg hopne]
      exact ⟨rfl, rfl⟩

theorem applyApiKeyParam_variables (akp : Option (String × String))
    (ps : List (String × String)) (hak : ∀ kv, akp = some kv → kv.1 ≠ "variables") :
    countKey (applyApiKeyParam akp ps) "variables" = countKey ps "variables" ∧
      recordGet (applyApiKeyParam akp ps) "variables" = recordGet ps "variables" := by
  revert hak
  cases akp with
  | none => intro _; exact ⟨rfl, rfl⟩
  | some kv =>
    intro hak
    have hne := hak kv rfl
    simp only [applyApiKeyParam]
    rw [countKey_set_ne _ _ _ _ hne, recordGet_searchSet_ne _ _ _ _ hne]
    exact ⟨rfl, rfl⟩

/-- Behaviour of the GET parameter pipeline on the variables key, over an
initial parameter list free of that key and an api-key credential not
named variables: the key appears exactly when the variables text is
neither empty nor the two-character object literal, exactly once, with
the text as its value. -/
theorem getParamsPipeline_variables (ps0 : List (String × String)) (q vt : String)
    (opName : Option String) (akp : Option (String × String))
    (hclean : countKey ps0 "variables" = 0)
    (hak : ∀ kv, akp = some kv → kv.1 ≠ "variables") :
    countKey (getParamsPipeline ps0 q vt opName akp) "variables" =
      (if vt ≠ "" ∧ vt ≠ "\x7b\x7d" then 1 else 0) ∧
    ((vt ≠ "" ∧ vt ≠ "\x7b\x7d") →
      recordGet (getParamsPipeline ps0 q vt opName akp) "variables" = some vt) := by
  have hq : ("query" : String) ≠ "variables" := by decide
  simp only [getParamsPipeline]
  by_cases hv : vt ≠ "" ∧ vt ≠ "\x7b\x7d"
  · rw [if_pos hv, if_pos hv]
    set ps2 := searchParamsSet (searchParamsSet ps0 "query" q) "variables" vt with hps2
    obtain ⟨hc3, hg3⟩ := applyOpNameParam_variables opName ps2
    obtain ⟨hc4, hg4⟩ := applyApiKeyParam_variables akp (applyOpNameParam opName ps2) hak
    rw [hc4, hg4, hc3, hg3, hps2, countKey_set_self, recordGet_searchSet_self]
    exact ⟨rfl, fun _ => rfl⟩
  · rw [if_neg hv, if_neg hv]
    set ps1 := searchParamsSet ps0 "query" q with hps1
    obtain ⟨hc3, -⟩ := applyOpNameParam_variables opName ps1
    obtain ⟨hc4, -⟩ := applyApiKeyParam_variables akp (applyOpNameParam opName ps1) hak
    rw [hc4, hc3, hps1, countKey_set_ne _ _ _ _ hq, hclean]
    exact ⟨rfl, fun hcontra => absurd hcontra hv⟩

/-- Claim C8 amended: for a non-proxy GET request whose endpoint URL does
not itself carry a variables search parameter and whose api-key query
credential is not named variables, the built URL carries the variables
parameter exactly when the interpolated variables text is neither the
empty string nor exactly the two-character object literal, exactly once
and bound to that text; a variables parameter already present in the
endpoint URL survives even when the text says omit, so the claim as
stated fails there. -/
theorem c8_get_variables_param (opts : RequestOptions) (w : World)
    (ps0 : List (String × String)) (req : WireRequest)
    (hproxy : opts.useProxy = false)
    (hget : opts.httpMethod = HttpMethod.get)
    (hps : w.urlParse (interpolateString opts.endpoint opts.context) = some ps0)
    (hclean : countKey ps0 "variables" = 0)
    (hak : ∀ kv, buildApiKeyQueryParam (interpolateAuth opts.auth opts.context) = some kv →
      kv.1 ≠ "variables")
    (hbw : buildWire opts w = Except.ok req) :
    countKey req.params "variables" =
      (if interpolateString opts.variablesText opts.context ≠ "" ∧
          interpolateString opts.variablesText opts.context ≠ "\x7b\x7d" then 1 else 0) ∧
    ((interpolateString opts.variablesText opts.context ≠ "" ∧
        interpolateString opts.variablesText opts.context ≠ "\x7b\x7d") →
      recordGet req.params "variables" =
        some (interpolateString opts.variablesText opts.context)) := by
  have hcond : ¬(interpolateString opts.endpoint opts.context = "" ∨
      (w.urlParse (interpolateString opts.endpoint opts.context)).isNone = true) := by
    rintro (h0 | h0)
    · simp only [buildWire] at hbw
      rw [if_pos (Or.inl h0)] at hbw
      exact Except.noConfusion hbw
    · rw [hps] at h0
      simp at h0
  have hsel : selectPath opts = RequestPath.viaGet := by simp [selectPath, hget]
  simp only [buildWire] at hbw
  rw [if_neg hcond, hsel] at hbw
  simp only [buildGet] at hbw
  have hproxyne : ¬(opts.useProxy = true) := by simp [hproxy]
  rw [if_neg hproxyne, hps] at hbw
  dsimp only at hbw
  injection hbw with hreq
  rw [← hreq]
  exact getParamsPipeline_variables ps0 opts.query
    (interpolateString opts.variablesText opts.context) opts.operationName
    (buildApiKeyQueryParam (interpolateAuth opts.auth opts.context)) hclean hak

/-- A GET request whose endpoint URL itself carries a variables search
parameter while the variables text is the two-character object literal. -/
def c8Opts : RequestOptions :=
  { baseOpts with httpMethod := HttpMethod.get, endpoint := "https://x.test/graphql?variables=1" }

/-- The host for the counterexample: parsing the endpoint of c8Opts
yields its one pre-existing search parameter. -/
def c8World : World :=
  { baseWorld with
    urlParse := fun s =>
      if s = "https://x.test/graphql?variables=1" then some [("variables", "1")] else none }

/-- Claim C8 as stated is false: here the interpolated variables text is
exactly the two-character object literal, so the claim requires the
variables parameter to be omitted from the URL, yet the outbound GET
carries one variables parameter, inherited from the endpoint URL. -/
theorem c8_get_variables_param_counterexample :
    interpolateString c8Opts.variablesText c8Opts.context = "\x7b\x7d" ∧
      (executeRequestCalls c8Opts c8World).map (fun r => countKey r.params "variables") = [1] :=
  ⟨rfl, rfl⟩

/-- A clean non-proxy GET request with a non-trivial variables text. -/
def c8wOpts : RequestOptions :=
  { baseOpts with httpMethod := HttpMethod.get, variablesText := "\x7b\"a\":1\x7d" }

/-- The wire request built from c8wOpts in the base world. -/
def c8wReq : WireRequest :=
  ⟨"https://x.test/graphql", "GET",
   [("query", "q"), ("variables", "\x7b\"a\":1\x7d")], [], EncodingKind.getQuery⟩

/-- Witness for the amended claim C8 at a concrete clean GET request:
the variables parameter appears exactly once and carries the text. -/
theorem c8_get_variables_param_witness :
    buildWire c8wOpts baseWorld = Except.ok c8wReq ∧
      countKey c8wReq.params "variables" = 1 ∧
      recordGet c8wReq.params "variables" = some "\x7b\"a\":1\x7d" := by
  obtain ⟨h1, h2⟩ := c8_get_variables_param c8wOpts baseWorld [] c8wReq rfl rfl rfl rfl
    (fun kv hkv => Option.noConfusion hkv) rfl
  refine ⟨rfl, ?_, ?_⟩
  · rw [h1]
    decide
  · exact h2 (by decide)

/-! ## Claim C2: the subscription manager (src/lib/subscription.ts)

The module keeps two module-scope client references, wsClient and
sseClient.  Connection objects are modelled by numeric identifiers drawn
from a counter; the state records which identifiers were created on each
transport, which have been disposed, and which identifier each
module-scope reference currently holds.  subscribeWebSocket (lines
176-255) assigns a freshly created client to wsClient; the returned
handle closes over the module-scope reference, so its unsubscribe
disposes whatever wsClient currently holds and clears it.  subscribeSSE
(lines 257-319) does the same with sseClient.  disconnectAll (lines
347-356) disposes and clears both. -/

/-- The module-scope connection state of subscription.ts. -/
structure SubState where
  nextId : Nat
  wsClient : Option Nat
  sseClient : Option Nat
  wsCreated : List Nat
  sseCreated : List Nat
  disposedIds : List Nat
deriving DecidableEq

/-- The initial module state: no client tracked, nothing created. -/
def initSubState : SubState := ⟨0, none, none, [], [], []⟩

/-- subscribeWebSocket: create a client and overwrite the module-scope
wsClient reference with it.  The prior reference is not disposed. -/
def subscribeWs (s : SubState) : Nat × SubState :=
  (s.nextId,
   { s with
     nextId := s.nextId + 1,
     wsClient := some s.nextId,
     wsCreated := s.nextId :: s.wsCreated })

/-- subscribeSSE: create a client and overwrite the module-scope
sseClient reference with it.  The prior reference is not disposed. -/
def subscribeSse (s : SubState) : Nat × SubState :=
  (s.nextId,
   { s with
     nextId := s.nextId + 1,
     sseClient := some s.nextId,
     sseCreated := s.nextId :: s.sseCreated })

/-- The unsubscribe of a WebSocket handle: dispose whatever client the
module-scope wsClient reference currently holds and clear it (the handle
does not remember its own client; it reads the module variable). -/
def handleUnsubscribeWs (s : SubState) : SubState :=
  match s.wsClient with
  | some id => { s with disposedIds := id :: s.disposedIds, wsClient := none }
  | none => { s with wsClient := none }

/-- The unsubscribe of an SSE handle, same shape over sseClient. -/
def handleUnsubscribeSse (s : SubState) : SubState :=
  match s.sseClient with
  | some id => { s with disposedIds := id :: s.disposedIds, sseClient := none }
  | none => { s with sseClient := none }

/-- disconnectAll: dispose and clear both tracked clients. -/
def disconnectAll (s : SubState) : SubState :=
  handleUnsubscribeSse (handleUnsubscribeWs s)

/-- The WebSocket connections created and never disposed. -/
def liveWs (s : SubState) : List Nat :=
  s.wsCreated.filter (fun id => decide (id ∉ s.disposedIds))

/-- The SSE connections created and never disposed. -/
def liveSse (s : SubState) : List Nat :=
  s.sseCreated.filter (fun id => decide (id ∉ s.disposedIds))

/-- The state after two consecutive WebSocket subscriptions from the
initial state. -/
def c2TwoWs : SubState := (subscribeWs (subscribeWs initSubState).2).2

/-- Claim C2 as stated is false: after a second WebSocket subscription
the prior connection has not been disposed — nothing at all has been
disposed — and two WebSocket connection objects are live at once. -/
theorem c2_second_subscribe_counterexample :
    (liveWs c2TwoWs).length = 2 ∧ c2TwoWs.disposedIds = [] ∧ c2TwoWs.wsClient = some 1 :=
  ⟨rfl, rfl, rfl⟩

/-- Claim C2 amended: establishing a new subscription of a transport
kind only overwrites the module-scope tracked reference of that kind
with the new connection; it disposes nothing, so every previously live
connection of the same kind stays live alongside the new one.  At most
one connection per kind is tracked, but not at most one live.  Disposal
happens only through a handle unsubscribe or disconnectAll, which
dispose exactly the currently tracked client. -/
theorem c2_subscribe_replaces_without_dispose (s : SubState) :
    ((subscribeWs s).2.wsClient = some s.nextId ∧
      (subscribeWs s).2.disposedIds = s.disposedIds ∧
      (subscribeWs s).2.wsCreated = s.nextId :: s.wsCreated ∧
      (∀ id, id ∈ liveWs s → id ∈ liveWs (subscribeWs s).2)) ∧
    ((subscribeSse s).2.sseClient = some s.nextId ∧
      (subscribeSse s).2.disposedIds = s.disposedIds ∧
      (subscribeSse s).2.sseCreated = s.nextId :: s.sseCreated ∧
      (∀ id, id ∈ liveSse s → id ∈ liveSse (subscribeSse s).2)) ∧
    (∀ cid, s.wsClient = some cid →
      cid ∈ (handleUnsubscribeWs s).disposedIds ∧ (handleUnsubscribeWs s).wsClient = none) := by
  refine ⟨⟨rfl, rfl, rfl, ?_⟩, ⟨rfl, rfl, rfl, ?_⟩, ?_⟩
  · intro id hid
    simp only [liveWs, subscribeWs, List.filter_cons]
    rcases hdec : decide (s.nextId ∉ s.disposedIds) with - | -
    · exact List.mem_filter.mpr (List.mem_filter.mp hid)
    · exact List.mem_cons_of_mem _ (List.mem_filter.mpr (List.mem_filter.mp hid))
  · intro id hid
    simp only [liveSse, subscribeSse, List.filter_cons]
    rcases hdec : decide (s.nextId ∉ s.disposedIds) with - | -
    · exact List.mem_filter.mpr (List.mem_filter.mp hid)
    · exact List.mem_cons_of_mem _ (List.mem_filter.mpr (List.mem_filter.mp hid))
  · intro cid hcid
    simp only [handleUnsubscribeWs, hcid]
    exact ⟨List.mem_cons_self _ _, trivial⟩

/-- Witness for the amended claim C2 at the concrete two-subscription
state: the first connection stays live after the second subscribe, and a
handle unsubscribe then disposes the tracked client. -/
theorem c2_subscribe_replaces_without_dispose_witness :
    (0 ∈ liveWs c2TwoWs) ∧ 1 ∈ (handleUnsubscribeWs c2TwoWs).disposedIds :=
  ⟨((c2_subscribe_replaces_without_dispose (subscribeWs initSubState).2).1.2.2.2 0 (by decide)),
   ((c2_subscribe_replaces_without_dispose c2TwoWs).2.2 1 rfl).1⟩

/-! ## Claim C6: the script sandbox worker (src/lib/scripts.ts and the
worker source)

The worker is single-threaded with run-to-completion semantics: the
onmessage handler runs the user script synchronously via the constructed
function; a timer callback registered with setTimeout can only run after
the handler has returned, and only if the handler has not cleared it.
The handler clears the timer on both its returning paths (after a normal
return and in the catch of a thrown script error) before posting the
result, and a script that never returns blocks the worker thread forever
so the handler never returns.  The model records, for each possible
outcome of the synchronous script call, what the handler posts, whether
it cleared the timer, and whether it returned. -/

/-- The sandbox buffers at a given moment: log lines and the three
override maps (values carried as strings, abstractly). -/
structure SandboxState where
  logs : List String
  envOverrides : List (String × String)
  varsOverrides : List (String × String)
  headersOverrides : List (String × String)
deriving DecidableEq

/-- ScriptResult from the types module. -/
structure ScriptResultM where
  success : Bool
  logs : List String
  envOverrides : List (String × String)
  varsOverrides : List (String × String)
  headersOverrides : List (String × String)
  error : Option String
deriving DecidableEq

/-- Outcome of the synchronous user-script call inside the handler:
normal return, thrown error, or divergence (the script never returns);
each carries the sandbox state at that moment. -/
inductive ScriptOutcome where
  | completes : SandboxState → ScriptOutcome
  | throws : String → SandboxState → ScriptOutcome
  | diverges : SandboxState → ScriptOutcome
deriving DecidableEq

/-- The sandbox state carried by an outcome. -/
def outcomeState : ScriptOutcome → SandboxState
  | ScriptOutcome.completes st => st
  | ScriptOutcome.throws _ st => st
  | ScriptOutcome.diverges st => st

/-- What one onmessage handler run does: the messages it posts, whether
it cleared the timeout timer, and whether it returned at all. -/
structure HandlerRun where
  posted : List ScriptResultM
  timerCleared : Bool
  handlerReturned : Bool
deriving DecidableEq

/-- The message the timeout callback would post if it ever ran (worker
source, the setTimeout body). -/
def timedOutResult (st : SandboxState) : ScriptResultM :=
  ⟨false, st.logs, st.envOverrides, st.varsOverrides, st.headersOverrides,
   some "Script execution timed out"⟩

/-- The onmessage handler of the worker: on a normal return it clears
the timer and posts the success result; on a thrown error it clears the
timer and posts the failure result with the thrown message; on a
diverging script it posts nothing, clears nothing and never returns. -/
def onmessageRun : ScriptOutcome → HandlerRun
  | ScriptOutcome.completes st =>
    ⟨[⟨true, st.logs, st.envOverrides, st.varsOverrides, st.headersOverrides, none⟩], true, true⟩
  | ScriptOutcome.throws m st =>
    ⟨[⟨false, st.logs, st.envOverrides, st.varsOverrides, st.headersOverrides, some m⟩],
     true, true⟩
  | ScriptOutcome.diverges _ => ⟨[], false, false⟩

/-- All messages the worker ever posts for one execute message, under
run-to-completion: the handler posts its messages, and the timeout
callback fires afterwards only if the handler returned with the timer
still registered. -/
def workerMessages (outcome : ScriptOutcome) : List ScriptResultM :=
  let r := onmessageRun outcome
  if r.handlerReturned && !r.timerCleared then
    r.posted ++ [timedOutResult (outcomeState outcome)]
  else r.posted

/-- The resolution of the promise returned by runPreRequestScript (and
runPostRequestScript, which has the same shape): a blank script resolves
immediately without touching the worker; otherwise the promise resolves
with the first message the worker posts, and never resolves if the
worker posts nothing. -/
def scriptRunResolution (script : String) (outcome : ScriptOutcome) : Option ScriptResultM :=
  if trimString script = "" then some ⟨true, [], [], [], [], none⟩
  else (workerMessages outcome).head?

/-- Claim C6 is refuted by the code: on every outcome of the script call
the worker posts exactly what the synchronous handler posts — the
"Script execution timed out" timer message is dead code, because both
returning paths clear the timer before yielding and a diverging script
blocks the thread so the timer callback can never run.  Consequently a
non-blank script that never returns gives a promise that never resolves,
where the claim (and the spec) demand resolution with the timed-out
failure carrying the partial state. -/
theorem c6_timeout_dead_code :
    (∀ outcome : ScriptOutcome, workerMessages outcome = (onmessageRun outcome).posted) ∧
    (∀ (script : String) (st : SandboxState), trimString script ≠ "" →
      scriptRunResolution script (ScriptOutcome.diverges st) = none) := by
  constructor
  · intro outcome
    cases outcome <;> rfl
  · intro script st hs
    unfold scriptRunResolution
    rw [if_neg hs]
    rfl

/-- Witness for claim C6 at the concrete diverging script: the worker
posts nothing and the script run never resolves. -/
theorem c6_timeout_dead_code_witness :
    workerMessages (ScriptOutcome.diverges ⟨["a"], [], [], []⟩) = [] ∧
      scriptRunResolution "while(true)\x7b\x7d" (ScriptOutcome.diverges ⟨["a"], [], [], []⟩) =
        none :=
  ⟨Eq.trans (c6_timeout_dead_code.1 (ScriptOutcome.diverges ⟨["a"], [], [], []⟩)) rfl,
   c6_timeout_dead_code.2 "while(true)\x7b\x7d" ⟨["a"], [], [], []⟩ (by decide)⟩
